import Mathlib

/-!
Verification of the AD-HTC thermodynamic engine (script.js).

The file embeds the numeric core of the repository — the gas property table,
the steam table approximations, and the three cycle evaluators — as functions
over the real numbers, and proves or refutes the frozen specification claims
about them.  JavaScript numbers are modelled as exact reals; `Math.log`,
`Math.sqrt` and `Math.pow(·, 0.25)` become `Real.log`, `Real.sqrt` and
`Real.rpow`.  The bounded bisection loops of the source are modelled by an
explicit iterator `biter` applied a fixed number of times.
-/

open scoped BigOperators
open scoped Classical

/-- One step of the source's bisection loops: evaluate the loop condition at
the midpoint of the current pair and replace the low (condition true) or high
(condition false) endpoint by the midpoint, exactly as in
`if (cond(mid)) lo = mid; else hi = mid;`. -/
noncomputable def bstep (c : ℝ → Prop) [DecidablePred c] (p : ℝ × ℝ) : ℝ × ℝ :=
  if c ((p.1 + p.2) / 2) then ((p.1 + p.2) / 2, p.2) else (p.1, (p.1 + p.2) / 2)

/-- Iterate `n` successive bisection steps, the shallow embedding of the source's
`for (let i = 0; i < n; i++)` bisection loops. -/
noncomputable def biter (c : ℝ → Prop) [DecidablePred c] : ℕ → ℝ × ℝ → ℝ × ℝ
  | 0, p => p
  | n + 1, p => biter c n (bstep c p)

namespace GasTable

/-- Polynomial `cp(T)` for air [kJ/(kg·K)], from `GasTable.cp` in script.js:
a quartic in `t = T/1000`. -/
noncomputable def cp (T : ℝ) : ℝ :=
  1.0483 - 0.3717 * (T / 1000) + 0.9483 * (T / 1000) * (T / 1000)
    - 0.6271 * (T / 1000) * (T / 1000) * (T / 1000)
    + 0.1507 * (T / 1000) * (T / 1000) * (T / 1000) * (T / 1000)

/-- Enthalpy `h(T)` relative to 0 K, from `GasTable.h` in script.js: Simpson
accumulation with `n = 200`, `dT = T/200`, first term `cp(1)` (the source
avoids `T = 0`), interior weights 4 (odd index) / 2 (even index), last term
`cp(T)`, all scaled by `dT/3`.  The source's running-sum loop over
`i = 1 … 199` is written as a finite sum over `i + 1` for `i < 199`. -/
noncomputable def h (T : ℝ) : ℝ :=
  (T / 200 / 3) *
    (cp 1
      + (∑ i ∈ Finset.range 199,
          (if (i + 1) % 2 = 0 then (2 : ℝ) else 4) * cp ((i + 1 : ℕ) * (T / 200)))
      + cp T)

/-- The Simpson accumulation part of `GasTable.s` in script.js: `dT`,
`sum = cp(T_ref)/T_ref`, the weighted interior terms `cp(Ti)/Ti` at
`Ti = T_ref + i·dT`, the final term `cp(T)/T`, scaled by `dT/3`. -/
noncomputable def sIntegral (T : ℝ) : ℝ :=
  ((T - 298.15) / 200 / 3) *
    (cp 298.15 / 298.15
      + (∑ i ∈ Finset.range 199,
          (if (i + 1) % 2 = 0 then (2 : ℝ) else 4) *
            (cp (298.15 + (i + 1 : ℕ) * ((T - 298.15) / 200)) /
              (298.15 + (i + 1 : ℕ) * ((T - 298.15) / 200))))
      + cp T / T)

/-- Entropy `s(T, P)` from `GasTable.s` in script.js: the Simpson integral of
`cp/T` from `T_ref = 298.15` to `T`, minus `R_air · ln(P / 101.325)`. -/
noncomputable def s (T P : ℝ) : ℝ :=
  sIntegral T - 0.287 * Real.log (P / 101.325)

/-- Isentropic exit temperature, from `GasTable.T_isentropic` in script.js:
80 bisection steps of `s(mid, P2) < s(T1, P1)` on `(T1·0.4, T1·3.5)`, then
the final midpoint. -/
noncomputable def T_isentropic (T1 P1 P2 : ℝ) : ℝ :=
  ((biter (fun mid => s mid P2 < s T1 P1) 80 (T1 * 0.4, T1 * 3.5)).1 +
    (biter (fun mid => s mid P2 < s T1 P1) 80 (T1 * 0.4, T1 * 3.5)).2) / 2

end GasTable

namespace SteamTable

/-- Saturation temperature [K] from pressure [kPa], from `SteamTable.T_sat`
in script.js: the IAPWS-IF97 backward correlation with
`beta = (P/1000)^0.25`. -/
noncomputable def T_sat (P_kPa : ℝ) : ℝ :=
  let beta : ℝ := (P_kPa / 1000) ^ (0.25 : ℝ)
  let E : ℝ := beta * beta + -17.073846940092 * beta + 14.91510861353
  let F : ℝ := 1167.0521452767 * beta * beta + 12020.82470247 * beta + -4823.2657361591
  let G : ℝ := -724213.16703206 * beta * beta + -3232555.0322333 * beta + 405113.40542057
  let D : ℝ := 2 * G / (-F - Real.sqrt (F * F - 4 * E * G))
  (650.17534844798 + D -
      Real.sqrt ((650.17534844798 + D) * (650.17534844798 + D) -
        4 * (-0.23855557567849 + 650.17534844798 * D))) / 2

/-- Saturation pressure from temperature, from `SteamTable.P_sat` in
script.js: 60 bisection steps of `T_sat(mid) < T` on `(0.5, 25000)` kPa,
then the final midpoint. -/
noncomputable def P_sat (T : ℝ) : ℝ :=
  ((biter (fun mid => T_sat mid < T) 60 (0.5, 25000)).1 +
    (biter (fun mid => T_sat mid < T) 60 (0.5, 25000)).2) / 2

/-- Saturated-liquid enthalpy, from `SteamTable.hf` in script.js. -/
noncomputable def hf (P : ℝ) : ℝ :=
  4.18 * (T_sat P - 273.15) + 0.00088 * (T_sat P - 273.15) * (T_sat P - 273.15)

/-- Saturated-vapor enthalpy, from `SteamTable.hg` in script.js. -/
noncomputable def hg (P : ℝ) : ℝ := 2501.3 + 1.86 * (T_sat P - 273.15)

/-- Latent heat, from `SteamTable.hfg` in script.js. -/
noncomputable def hfg (P : ℝ) : ℝ := hg P - hf P

/-- Saturated-liquid entropy, from `SteamTable.sf` in script.js. -/
noncomputable def sf (P : ℝ) : ℝ := 4.18 * Real.log (T_sat P / 273.15)

/-- Saturated-vapor entropy, from `SteamTable.sg` in script.js. -/
noncomputable def sg (P : ℝ) : ℝ := sf P + hfg P / T_sat P

/-- Saturated-liquid specific volume, from `SteamTable.vf` in script.js. -/
noncomputable def vf : ℝ := 0.001

/-- Superheated enthalpy, from `SteamTable.h_super` in script.js. -/
noncomputable def h_super (P T : ℝ) : ℝ :=
  hg P + (1.87 + 0.00036 * (T - 373.15)) * (T - T_sat P)

/-- Superheated entropy, from `SteamTable.s_super` in script.js. -/
noncomputable def s_super (P T : ℝ) : ℝ :=
  sg P + (1.87 + 0.00036 * (T - 373.15)) * Real.log (T / T_sat P)

/-- Superheated temperature from entropy, from `SteamTable.T_from_s_super`
in script.js: 80 bisection steps of `s_super(P, mid) < s_target` on
`(T_sat P, 1200)`, then the final midpoint. -/
noncomputable def T_from_s_super (P s_target : ℝ) : ℝ :=
  ((biter (fun mid => s_super P mid < s_target) 80 (T_sat P, 1200)).1 +
    (biter (fun mid => s_super P mid < s_target) 80 (T_sat P, 1200)).2) / 2

/-- Quality from entropy, from `SteamTable.x_from_s` in script.js: clamp to
0 below `sf`, to 1 at or above `sg`, linear interpolation in between. -/
noncomputable def x_from_s (P sv : ℝ) : ℝ :=
  if sv ≤ sf P then 0
  else if sg P ≤ sv then 1
  else (sv - sf P) / (sg P - sf P)

/-- Enthalpy from quality, from `SteamTable.h_from_x` in script.js. -/
noncomputable def h_from_x (P x : ℝ) : ℝ := hf P + x * hfg P

end SteamTable

/-- The flat record of scalar inputs collected by `getParams` in script.js
(presentation-layer unit conversions already applied; the boiler pressure is
in kPa here). -/
structure Params where
  T1 : ℝ
  P1 : ℝ
  rp : ℝ
  TIT : ℝ
  eta_c : ℝ
  eta_t : ℝ
  LHV : ℝ
  m_air : ℝ
  P_boiler : ℝ
  T_steam : ℝ
  P_cond : ℝ
  eta_st : ℝ
  eta_fp : ℝ
  m_biomass : ℝ
  moisture_split : ℝ
  ad_yield : ℝ
  htc_temp : ℝ

/-- One gas-cycle state record (numeric fields of the objects pushed onto
`states` in `calculateGasCycle`; the presentational id/label strings are
omitted). -/
structure GasState where
  T : ℝ
  P : ℝ
  h : ℝ
  s : ℝ

/-- The record returned by `calculateGasCycle` in script.js. -/
structure GasCycleResult where
  states : List GasState
  w_c : ℝ
  w_t : ℝ
  q_in : ℝ
  w_net : ℝ
  m_fuel : ℝ
  T_exhaust : ℝ

/-- Gas (Brayton) cycle evaluator, from `calculateGasCycle` in script.js,
state by state with the same intermediate quantities. -/
noncomputable def calculateGasCycle (p : Params) : GasCycleResult :=
  let T1 := p.T1
  let P1 := p.P1
  let st1 : GasState := ⟨T1, P1, GasTable.h T1, GasTable.s T1 P1⟩
  let P2 := P1 * p.rp
  let T2s := GasTable.T_isentropic T1 P1 P2
  let h1 := GasTable.h T1
  let h2s := GasTable.h T2s
  let h2 := h1 + (h2s - h1) / p.eta_c
  let T2 := T2s + (T2s - T1) * (1 / p.eta_c - 1)
  let st2 : GasState := ⟨T2, P2, h2, GasTable.s T2 P2⟩
  let T3 := p.TIT
  let P3 := P2 * 0.96
  let st3 : GasState := ⟨T2, P2, h2, GasTable.s T2 P2⟩
  let h4 := GasTable.h T3
  let st4 : GasState := ⟨T3, P3, h4, GasTable.s T3 P3⟩
  let P5 := P1 * 1.02
  let T5s := GasTable.T_isentropic T3 P3 P5
  let h5s := GasTable.h T5s
  let h5 := h4 - p.eta_t * (h4 - h5s)
  let T5 := T5s + (T3 - T5s) * (1 - p.eta_t)
  let st5 : GasState := ⟨T5, P5, h5, GasTable.s T5 P5⟩
  let w_c := h2 - h1
  let w_t := h4 - h5
  let q_in := h4 - h2
  let w_net := w_t - w_c
  let m_fuel := q_in * p.m_air / p.LHV
  ⟨[st1, st2, st3, st4, st5], w_c, w_t, q_in, w_net, m_fuel, T5⟩

/-- Quality reported by the ideal turbine-exit branch of
`calculateSteamCycle` in script.js (`xb_s`): two-phase interpolation below
`sg`, the marker value 1 otherwise. -/
noncomputable def idealExitQuality (P sv : ℝ) : ℝ :=
  if sv < SteamTable.sg P then SteamTable.x_from_s P sv else 1

/-- Temperature of the ideal turbine-exit branch of `calculateSteamCycle`
in script.js (`Tb` before the real-state correction): saturation temperature
below `sg`, superheated entropy inversion otherwise. -/
noncomputable def idealExitT (P sv : ℝ) : ℝ :=
  if sv < SteamTable.sg P then SteamTable.T_sat P else SteamTable.T_from_s_super P sv

/-- Enthalpy of the ideal turbine-exit branch of `calculateSteamCycle` in
script.js (`hb_s`). -/
noncomputable def idealExitH (P sv : ℝ) : ℝ :=
  if sv < SteamTable.sg P then SteamTable.h_from_x P (SteamTable.x_from_s P sv)
  else SteamTable.h_super P (SteamTable.T_from_s_super P sv)

/-- One steam-cycle state record; the mixed-type quality column (number or
the marker `'-'`) is represented as `Option ℝ`. -/
structure SteamState where
  T : ℝ
  P : ℝ
  h : ℝ
  s : ℝ
  x : Option ℝ

/-- The record returned by `calculateSteamCycle` in script.js. -/
structure SteamCycleResult where
  states : List SteamState
  w_st : ℝ
  w_fp : ℝ
  q_boiler : ℝ
  q_cond : ℝ
  w_net : ℝ

/-- Steam (Rankine) cycle evaluator, from `calculateSteamCycle` in
script.js, state by state: superheated boiler exit, turbine exit with the
ideal branch followed by the real-state (quality ≤ 1) re-branch, saturated
condenser exit, and the feed-pump exit approximations. -/
noncomputable def calculateSteamCycle (p : Params) : SteamCycleResult :=
  let Pa := p.P_boiler
  let Ta := p.T_steam
  let Pb := p.P_cond
  let ha := SteamTable.h_super Pa Ta
  let sa := SteamTable.s_super Pa Ta
  let sta : SteamState := ⟨Ta, Pa, ha, sa, none⟩
  let sb_s := sa
  let sg_c := SteamTable.sg Pb
  let sf_c := SteamTable.sf Pb
  let hb_s := idealExitH Pb sb_s
  let Tb0 := idealExitT Pb sb_s
  let hb := ha - p.eta_st * (ha - hb_s)
  let xb0 := (hb - SteamTable.hf Pb) / SteamTable.hfg Pb
  let stb : SteamState :=
    if xb0 ≤ 1 then ⟨SteamTable.T_sat Pb, Pb, hb, sf_c + xb0 * (sg_c - sf_c), some xb0⟩
    else ⟨Tb0, Pb, hb, SteamTable.s_super Pb Tb0, none⟩
  let Pc := Pb
  let Tc := SteamTable.T_sat Pc
  let hc := SteamTable.hf Pc
  let sc := SteamTable.sf Pc
  let stc : SteamState := ⟨Tc, Pc, hc, sc, some 0⟩
  let Pd := Pa
  let wp_s := SteamTable.vf * (Pd - Pc)
  let wp := wp_s / p.eta_fp
  let hd := hc + wp
  let sd := sc + 0.001
  let Td := Tc + wp / 4.18
  let std : SteamState := ⟨Td, Pd, hd, sd, none⟩
  let w_st := ha - hb
  let w_fp := wp
  let q_boiler := ha - hd
  let q_cond := hb - hc
  let w_net := w_st - w_fp
  ⟨[sta, stb, stc, std], w_st, w_fp, q_boiler, q_cond, w_net⟩

/-- The record returned by `calculateADHTC` in script.js. -/
structure ADResult where
  m_total : ℝ
  m_rich : ℝ
  m_lean : ℝ
  biogas_vol : ℝ
  m_biogas : ℝ
  htc_energy : ℝ

/-- AD-HTC mass and energy balance, from `calculateADHTC` in script.js. -/
noncomputable def calculateADHTC (p : Params) : ADResult :=
  let m_total := p.m_biomass
  let m_rich := m_total * p.moisture_split
  let m_lean := m_total * (1 - p.moisture_split)
  let biogas_vol := m_rich * p.ad_yield
  let m_biogas := biogas_vol * 1.15
  let htc_energy := m_lean * 1.5 * (p.htc_temp - 298)
  ⟨m_total, m_rich, m_lean, biogas_vol, m_biogas, htc_energy⟩

section BisectBasic

variable {c : ℝ → Prop} [DecidablePred c]

/-- A bisection step keeps both endpoints inside any interval containing the
starting pair. -/
lemma bstep_mem_Icc {a b : ℝ} {p : ℝ × ℝ} (h1 : p.1 ∈ Set.Icc a b)
    (h2 : p.2 ∈ Set.Icc a b) :
    (bstep c p).1 ∈ Set.Icc a b ∧ (bstep c p).2 ∈ Set.Icc a b := by
  obtain ⟨h1a, h1b⟩ := h1
  obtain ⟨h2a, h2b⟩ := h2
  unfold bstep
  split_ifs with hc
  · exact ⟨⟨by linarith, by linarith⟩, ⟨h2a, h2b⟩⟩
  · exact ⟨⟨h1a, h1b⟩, ⟨by linarith, by linarith⟩⟩

/-- Iterated bisection keeps both endpoints inside any interval containing
the starting pair. -/
lemma biter_mem_Icc {a b : ℝ} (n : ℕ) (p : ℝ × ℝ) (h1 : p.1 ∈ Set.Icc a b)
    (h2 : p.2 ∈ Set.Icc a b) :
    (biter c n p).1 ∈ Set.Icc a b ∧ (biter c n p).2 ∈ Set.Icc a b := by
  induction n generalizing p with
  | zero => exact ⟨h1, h2⟩
  | succ n ih =>
    have hs := bstep_mem_Icc (c := c) h1 h2
    exact ih _ hs.1 hs.2

/-- The midpoint returned after iterated bisection on the pair `(lo, hi)`
lies between the smaller and the larger of the two bracket endpoints. -/
lemma biter_midpoint_mem (n : ℕ) (lo hi : ℝ) :
    min lo hi ≤ ((biter c n (lo, hi)).1 + (biter c n (lo, hi)).2) / 2 ∧
      ((biter c n (lo, hi)).1 + (biter c n (lo, hi)).2) / 2 ≤ max lo hi := by
  have h := biter_mem_Icc (c := c) (a := min lo hi) (b := max lo hi) n (lo, hi)
    ⟨min_le_left lo hi, le_max_left lo hi⟩ ⟨min_le_right lo hi, le_max_right lo hi⟩
  obtain ⟨⟨ha1, ha2⟩, ⟨hb1, hb2⟩⟩ := h
  constructor
  · linarith
  · linarith

/-- One bisection step exactly halves the width of the pair. -/
lemma bstep_width (p : ℝ × ℝ) : (bstep c p).2 - (bstep c p).1 = (p.2 - p.1) / 2 := by
  unfold bstep
  split_ifs <;> dsimp only <;> ring

/-- After `n` bisection steps the width of the pair is the initial width
divided by `2 ^ n`. -/
lemma biter_width (n : ℕ) (p : ℝ × ℝ) :
    (biter c n p).2 - (biter c n p).1 = (p.2 - p.1) / 2 ^ n := by
  induction n generalizing p with
  | zero => simp [biter]
  | succ n ih =>
    show (biter c n (bstep c p)).2 - (biter c n (bstep c p)).1 = _
    rw [ih, bstep_width]
    ring

/-- The sign invariant of the source's bisection loops: if the condition
holds at the low endpoint and fails at the high endpoint, this stays true
through every iteration. -/
lemma biter_invariant (n : ℕ) (p : ℝ × ℝ) (h1 : c p.1) (h2 : ¬ c p.2) :
    c (biter c n p).1 ∧ ¬ c (biter c n p).2 := by
  induction n generalizing p with
  | zero => exact ⟨h1, h2⟩
  | succ n ih =>
    show c (biter c n (bstep c p)).1 ∧ ¬ c (biter c n (bstep c p)).2
    apply ih
    · unfold bstep
      split_ifs with hc
      · exact hc
      · exact h1
    · unfold bstep
      split_ifs with hc
      · exact h2
      · exact hc

/-- If the condition fails everywhere strictly above `lo` up to `hi`, the
bisection never moves the low endpoint and the high endpoint halves toward
it: after `n` steps the pair is `(lo, lo + (hi - lo) / 2 ^ n)`. -/
lemma biter_stuck_low (n : ℕ) (lo : ℝ) :
    ∀ hi : ℝ, lo < hi → (∀ x, lo < x → x ≤ hi → ¬ c x) →
      biter c n (lo, hi) = (lo, lo + (hi - lo) / 2 ^ n) := by
  induction n with
  | zero =>
    intro hi hlt hnc
    show (lo, hi) = _
    rw [Prod.ext_iff]
    constructor
    · rfl
    · norm_num
  | succ n ih =>
    intro hi hlt hnc
    have hmid : bstep c (lo, hi) = (lo, (lo + hi) / 2) := by
      unfold bstep
      rw [if_neg]
      exact hnc _ (by dsimp only; linarith) (by dsimp only; linarith)
    show biter c n (bstep c (lo, hi)) = _
    rw [hmid, ih ((lo + hi) / 2) (by linarith)
      (fun x hx1 hx2 => hnc x hx1 (by linarith))]
    rw [Prod.ext_iff]
    constructor
    · rfl
    · show lo + ((lo + hi) / 2 - lo) / 2 ^ n = lo + (hi - lo) / 2 ^ (n + 1)
      rw [pow_succ]
      ring

end BisectBasic

/-- At the reference temperature the entropy integration step width is zero,
so only the pressure term remains. -/
lemma gasEntropy_at_Tref (P : ℝ) :
    GasTable.s 298.15 P = -0.287 * Real.log (P / 101.325) := by
  unfold GasTable.s GasTable.sIntegral
  norm_num

/-- C9: at the reference temperature 298.15 K the Simpson integral term of
the gas entropy vanishes (zero step width), so for every pressure `P > 0`,
`s(298.15, P) = -0.287 * log (P / 101.325)`; in particular
`s(298.15, 101.325) = 0` exactly. -/
theorem gas_entropy_reference_point (P : ℝ) (hP : 0 < P) :
    GasTable.s 298.15 P = -0.287 * Real.log (P / 101.325) ∧
      GasTable.s 298.15 101.325 = 0 := by
  refine ⟨gasEntropy_at_Tref P, ?_⟩
  rw [gasEntropy_at_Tref]
  norm_num

/-- Witness for `gas_entropy_reference_point` at `P = 101.325`. -/
theorem gas_entropy_reference_point_witness :
    GasTable.s 298.15 101.325 = -0.287 * Real.log (101.325 / 101.325) ∧
      GasTable.s 298.15 101.325 = 0 :=
  gas_entropy_reference_point 101.325 (by norm_num)

/-- C8: the biomass balance splits the feed by the moisture fraction,
computes the biogas volume as rich-stream flow times yield and the biogas
mass via the fixed density 1.15; at feed 5 kg/s, split 0.6, yield 0.4 the
outputs are exactly 3, 2, 1.2 and 1.38. -/
theorem biomass_balance (p : Params) :
    (calculateADHTC p).m_rich = p.m_biomass * p.moisture_split ∧
    (calculateADHTC p).m_lean = p.m_biomass * (1 - p.moisture_split) ∧
    (calculateADHTC p).biogas_vol = p.m_biomass * p.moisture_split * p.ad_yield ∧
    (calculateADHTC p).m_biogas = (calculateADHTC p).biogas_vol * 1.15 ∧
    (p.m_biomass = 5 → p.moisture_split = 0.6 → p.ad_yield = 0.4 →
      (calculateADHTC p).m_rich = 3 ∧ (calculateADHTC p).m_lean = 2 ∧
      (calculateADHTC p).biogas_vol = 1.2 ∧ (calculateADHTC p).m_biogas = 1.38) := by
  unfold calculateADHTC
  refine ⟨rfl, rfl, rfl, rfl, fun h5 h6 h4 => ?_⟩
  dsimp only
  rw [h5, h6, h4]
  norm_num

/-- Witness for `biomass_balance` at the spec's concrete balance point. -/
theorem biomass_balance_witness :
    (calculateADHTC ⟨298, 101.325, 10, 1400, 0.86, 0.89, 50000, 434, 4000, 673,
        10, 0.85, 0.75, 5, 0.6, 0.4, 500⟩).m_rich = 3 ∧
    (calculateADHTC ⟨298, 101.325, 10, 1400, 0.86, 0.89, 50000, 434, 4000, 673,
        10, 0.85, 0.75, 5, 0.6, 0.4, 500⟩).m_lean = 2 ∧
    (calculateADHTC ⟨298, 101.325, 10, 1400, 0.86, 0.89, 50000, 434, 4000, 673,
        10, 0.85, 0.75, 5, 0.6, 0.4, 500⟩).biogas_vol = 1.2 ∧
    (calculateADHTC ⟨298, 101.325, 10, 1400, 0.86, 0.89, 50000, 434, 4000, 673,
        10, 0.85, 0.75, 5, 0.6, 0.4, 500⟩).m_biogas = 1.38 :=
  (biomass_balance _).2.2.2.2 rfl rfl rfl

/-- C5: every work and heat figure of the gas-cycle result is the stated
combination of the enthalpies stored in the returned state records, so the
net work always equals its recomputation from the states. -/
theorem gas_cycle_consistency (p : Params) :
    ∃ s1 s2 s3 s4 s5 : GasState,
      (calculateGasCycle p).states = [s1, s2, s3, s4, s5] ∧
      (calculateGasCycle p).w_c = s2.h - s1.h ∧
      (calculateGasCycle p).w_t = s4.h - s5.h ∧
      (calculateGasCycle p).q_in = s4.h - s2.h ∧
      (calculateGasCycle p).w_net = (calculateGasCycle p).w_t - (calculateGasCycle p).w_c ∧
      (calculateGasCycle p).m_fuel = (calculateGasCycle p).q_in * p.m_air / p.LHV ∧
      (calculateGasCycle p).w_net = (s4.h - s5.h) - (s2.h - s1.h) := by
  unfold calculateGasCycle
  exact ⟨_, _, _, _, _, rfl, rfl, rfl, rfl, rfl, rfl, rfl⟩

/-- C6: the steam-cycle feed-pump exit state is built exactly from the
condenser-exit saturated-liquid state by the stated pump-work, enthalpy,
entropy-increment and temperature approximations, with `v_f = 0.001`. -/
theorem steam_pump_exit (p : Params) :
    ∃ sa sb sc sd : SteamState,
      (calculateSteamCycle p).states = [sa, sb, sc, sd] ∧
      (calculateSteamCycle p).w_fp = SteamTable.vf * (p.P_boiler - p.P_cond) / p.eta_fp ∧
      SteamTable.vf = 0.001 ∧
      sc.T = SteamTable.T_sat p.P_cond ∧
      sc.h = SteamTable.hf p.P_cond ∧
      sc.s = SteamTable.sf p.P_cond ∧
      sd.h = sc.h + (calculateSteamCycle p).w_fp ∧
      sd.s = sc.s + 0.001 ∧
      sd.T = sc.T + (calculateSteamCycle p).w_fp / 4.18 := by
  unfold calculateSteamCycle
  exact ⟨_, _, _, _, rfl, rfl, rfl, rfl, rfl, rfl, rfl, rfl, rfl⟩

/-- The composite-Simpson expression the specification describes for
`enthalpy(T)`: 200 subintervals of width `T/200`, endpoint weights 1,
odd-index interior weight 4, even-index interior weight 2, all scaled by
`(T/200)/3`; the lower endpoint is the near-zero temperature 1 K that the
integration starts from. -/
noncomputable def hSimpsonSpec (T : ℝ) : ℝ :=
  (T / 200 / 3) *
    ∑ i ∈ Finset.range 201,
      (if i = 0 ∨ i = 200 then (1 : ℝ) else if i % 2 = 1 then 4 else 2) *
        (if i = 0 then GasTable.cp 1 else GasTable.cp ((i : ℕ) * (T / 200)))

/-- C2: for every `T > 0` the source's enthalpy accumulation loop equals the
composite-Simpson formula with 200 subintervals of width `T/200`: endpoint
weights 1, odd interior nodes weight 4, even interior nodes weight 2,
scaled by `(T/200)/3`. -/
theorem enthalpy_is_simpson (T : ℝ) (hT : 0 < T) :
    GasTable.h T = hSimpsonSpec T := by
  unfold GasTable.h hSimpsonSpec
  congr 1
  conv_rhs => rw [Finset.sum_range_succ, Finset.sum_range_succ']
  have hs : ∀ i ∈ Finset.range 199,
      ((if i + 1 = 0 ∨ i + 1 = 200 then (1 : ℝ) else if (i + 1) % 2 = 1 then 4 else 2) *
        (if i + 1 = 0 then GasTable.cp 1 else GasTable.cp ((i + 1 : ℕ) * (T / 200)))) =
      (if (i + 1) % 2 = 0 then (2 : ℝ) else 4) * GasTable.cp ((i + 1 : ℕ) * (T / 200)) := by
    intro i hi
    rw [Finset.mem_range] at hi
    rw [if_neg (by omega : ¬(i + 1 = 0 ∨ i + 1 = 200)), if_neg (by omega : ¬i + 1 = 0)]
    rcases Nat.mod_two_eq_zero_or_one (i + 1) with hp | hp
    · rw [if_neg (by omega), if_pos hp]
    · rw [if_pos hp, if_neg (by omega)]
  rw [Finset.sum_congr rfl hs]
  have h200 : (200 : ℝ) * (T / 200) = T := by ring
  norm_num
  rw [h200]
  ring

/-- Witness for `enthalpy_is_simpson` at `T = 500`. -/
theorem enthalpy_is_simpson_witness : GasTable.h 500 = hSimpsonSpec 500 :=
  enthalpy_is_simpson 500 (by norm_num)

/-- C3: on the valid domain (`sf P < sg P`) the quality from entropy is
exactly 0 at or below `sf`, exactly 1 at or above `sg`, and the linear
interpolant strictly in between. -/
theorem quality_from_entropy_clamped (P sv : ℝ)
    (hdom : SteamTable.sf P < SteamTable.sg P) :
    (sv ≤ SteamTable.sf P → SteamTable.x_from_s P sv = 0) ∧
    (SteamTable.sg P ≤ sv → SteamTable.x_from_s P sv = 1) ∧
    (SteamTable.sf P < sv → sv < SteamTable.sg P →
      SteamTable.x_from_s P sv =
        (sv - SteamTable.sf P) / (SteamTable.sg P - SteamTable.sf P)) := by
  unfold SteamTable.x_from_s
  refine ⟨fun h1 => if_pos h1, fun h2 => ?_, fun h3 h4 => ?_⟩
  · rw [if_neg (by linarith), if_pos h2]
  · rw [if_neg (by linarith), if_neg (by linarith)]

/-- C10 counterexample: at the concrete input `T1 = -1` the interval
`[0.4·T1, 3.5·T1]` is empty (its left end exceeds its right end), so the
returned value cannot lie in it; confinement as claimed fails. -/
theorem bracket_confinement_counterexample :
    ¬ (0.4 * (-1 : ℝ) ≤ GasTable.T_isentropic (-1) 101.325 200 ∧
       GasTable.T_isentropic (-1) 101.325 200 ≤ 3.5 * (-1 : ℝ)) := by
  rintro ⟨h1, h2⟩
  linarith

/-- C10 amended: each bisection solver always returns a value between the
smaller and the larger of its two bracket endpoints: `isentropicTemperature`
between `0.4·T1` and `3.5·T1` (in either order), `saturationPressure` in
`[0.5, 25000]`, and `temperatureFromSuperheatedEntropy` between `T_sat(P)`
and 1200 (in either order) — regardless of whether the true root lies
inside the bracket. -/
theorem bracket_confinement (T1 P1 P2 sv T P : ℝ) :
    (min (T1 * 0.4) (T1 * 3.5) ≤ GasTable.T_isentropic T1 P1 P2 ∧
      GasTable.T_isentropic T1 P1 P2 ≤ max (T1 * 0.4) (T1 * 3.5)) ∧
    (0.5 ≤ SteamTable.P_sat T ∧ SteamTable.P_sat T ≤ 25000) ∧
    (min (SteamTable.T_sat P) 1200 ≤ SteamTable.T_from_s_super P sv ∧
      SteamTable.T_from_s_super P sv ≤ max (SteamTable.T_sat P) 1200) := by
  refine ⟨?_, ?_, ?_⟩
  · unfold GasTable.T_isentropic
    exact biter_midpoint_mem 80 (T1 * 0.4) (T1 * 3.5)
  · unfold SteamTable.P_sat
    have h := biter_midpoint_mem (c := fun mid => SteamTable.T_sat mid < T) 60 0.5 25000
    rwa [min_eq_left (by norm_num), max_eq_right (by norm_num)] at h
  · unfold SteamTable.T_from_s_super
    exact biter_midpoint_mem 80 (SteamTable.T_sat P) 1200

/-- Numeric bounds for the IF97 correlation at 1000 kPa (where `beta = 1`):
`T_sat(1000)` lies between 452 K and 454 K.  Both nested square roots are
bracketed by rational squares. -/
lemma T_sat_1000_bounds : 452 ≤ SteamTable.T_sat 1000 ∧ SteamTable.T_sat 1000 ≤ 454 := by
  unfold SteamTable.T_sat
  norm_num [Real.one_rpow]
  set s1 : ℝ := Real.sqrt 668812061483903463109290323 / Real.sqrt 12500000000000000000 with hs1
  have hs1' : s1 = Real.sqrt (668812061483903463109290323 / 12500000000000000000) := by
    rw [hs1, Real.sqrt_div (by norm_num)]
  have h1 : (7314 : ℝ) ≤ s1 := by
    rw [hs1']
    calc (7314 : ℝ) = Real.sqrt (7314 ^ 2) := (Real.sqrt_sq (by norm_num)).symm
      _ ≤ _ := Real.sqrt_le_sqrt (by norm_num)
  have h2 : s1 ≤ 7315 := by
    rw [hs1']
    calc Real.sqrt ((668812061483903463109290323 : ℝ) / 12500000000000000000)
        ≤ Real.sqrt (7315 ^ 2) := Real.sqrt_le_sqrt (by norm_num)
      _ = 7315 := Real.sqrt_sq (by norm_num)
  set d : ℝ := -(355165479384479 / 50000000) / (-(20911527778969 / 2500000000) - s1) with hd
  have hden : (-(20911527778969 / 2500000000) - s1 : ℝ) < 0 := by linarith
  have hd1 : (453 : ℝ) ≤ d := by
    rw [hd, le_div_iff_of_neg hden]
    linarith
  have hd2 : d ≤ 453.1 := by
    rw [hd, div_le_iff_of_neg hden]
    linarith
  set s2 : ℝ := Real.sqrt ((32508767422399 / 50000000000 + d) * (32508767422399 / 50000000000 + d) -
      4 * (-(23855557567849 / 100000000000000) + 32508767422399 / 50000000000 * d)) with hs2
  have harg1 : (197 : ℝ) ^ 2 ≤
      (32508767422399 / 50000000000 + d) * (32508767422399 / 50000000000 + d) -
        4 * (-(23855557567849 / 100000000000000) + 32508767422399 / 50000000000 * d) := by
    nlinarith [sq_nonneg (d - 453.1)]
  have harg2 :
      (32508767422399 / 50000000000 + d) * (32508767422399 / 50000000000 + d) -
        4 * (-(23855557567849 / 100000000000000) + 32508767422399 / 50000000000 * d) ≤
      (198 : ℝ) ^ 2 := by
    nlinarith [sq_nonneg (d - 453)]
  have hs2a : (197 : ℝ) ≤ s2 := by
    rw [hs2]
    calc (197 : ℝ) = Real.sqrt (197 ^ 2) := (Real.sqrt_sq (by norm_num)).symm
      _ ≤ _ := Real.sqrt_le_sqrt harg1
  have hs2b : s2 ≤ 198 := by
    rw [hs2]
    calc Real.sqrt _ ≤ Real.sqrt (198 ^ 2) := Real.sqrt_le_sqrt harg2
      _ = 198 := Real.sqrt_sq (by norm_num)
  constructor
  · linarith
  · linarith

/-- The saturation temperature at 1000 kPa is positive. -/
lemma T_sat_1000_pos : 0 < SteamTable.T_sat 1000 :=
  lt_of_lt_of_le (by norm_num) T_sat_1000_bounds.1

/-- The latent heat correlation is positive at 1000 kPa. -/
lemma hfg_1000_pos : 0 < SteamTable.hfg 1000 := by
  have hb := T_sat_1000_bounds
  unfold SteamTable.hfg SteamTable.hg SteamTable.hf
  nlinarith [mul_nonneg (sub_nonneg.2 hb.1) (sub_nonneg.2 hb.2)]

/-- 1000 kPa lies in the valid two-phase domain: `sf(1000) < sg(1000)`. -/
lemma sf_lt_sg_1000 : SteamTable.sf 1000 < SteamTable.sg 1000 := by
  unfold SteamTable.sg
  have := div_pos hfg_1000_pos T_sat_1000_pos
  linarith

/-- Witness for `quality_from_entropy_clamped` at `P = 1000` with entropy
values at, above and between the saturation entropies. -/
theorem quality_from_entropy_clamped_witness :
    SteamTable.x_from_s 1000 (SteamTable.sf 1000) = 0 ∧
    SteamTable.x_from_s 1000 (SteamTable.sg 1000) = 1 ∧
    SteamTable.x_from_s 1000 ((SteamTable.sf 1000 + SteamTable.sg 1000) / 2) =
      ((SteamTable.sf 1000 + SteamTable.sg 1000) / 2 - SteamTable.sf 1000) /
        (SteamTable.sg 1000 - SteamTable.sf 1000) :=
  ⟨(quality_from_entropy_clamped 1000 _ sf_lt_sg_1000).1 le_rfl,
   (quality_from_entropy_clamped 1000 _ sf_lt_sg_1000).2.1 le_rfl,
   (quality_from_entropy_clamped 1000 _ sf_lt_sg_1000).2.2
     (by linarith [sf_lt_sg_1000]) (by linarith [sf_lt_sg_1000])⟩

/-- Above the saturation temperature the superheated-entropy correlation is
at least `sg P`: its correction term is a product of a positive specific
heat and a nonnegative logarithm. -/
lemma s_super_ge_sg (P x : ℝ) (h0 : 0 < SteamTable.T_sat P)
    (hx : SteamTable.T_sat P < x) :
    ¬ (SteamTable.s_super P x < SteamTable.sg P) := by
  unfold SteamTable.s_super
  intro hlt
  have hlog : 0 ≤ Real.log (x / SteamTable.T_sat P) :=
    Real.log_nonneg ((one_le_div h0).mpr hx.le)
  have hcp : 0 ≤ 1.87 + 0.00036 * (x - 373.15) := by nlinarith
  nlinarith [mul_nonneg hcp hlog]

/-- Inverting the superheated entropy at exactly `sg P` never moves the low
endpoint of the bisection: every midpoint has entropy at least the target,
so the result is `T_sat P` plus the final half-width
`(1200 - T_sat P) / 2 ^ 81`. -/
lemma T_from_s_super_at_sg (P : ℝ) (h0 : 0 < SteamTable.T_sat P)
    (h12 : SteamTable.T_sat P < 1200) :
    SteamTable.T_from_s_super P (SteamTable.sg P) =
      SteamTable.T_sat P + (1200 - SteamTable.T_sat P) / 2 ^ 81 := by
  unfold SteamTable.T_from_s_super
  rw [biter_stuck_low 80 (SteamTable.T_sat P) 1200 h12
    (fun x hx1 _ => s_super_ge_sg P x h0 hx1)]
  dsimp only
  rw [show (81 : ℕ) = 80 + 1 from rfl, pow_succ]
  ring

/-- C4 counterexample: at `P = 1000` kPa and isentropic exit entropy equal
to `sg(1000)`, the ideal turbine-exit temperature is not `T_sat(1000)` —
the tie goes to the superheated bisection, which returns a value strictly
above the saturation temperature. -/
theorem steam_tie_counterexample :
    ¬ (idealExitT 1000 (SteamTable.sg 1000) = SteamTable.T_sat 1000) := by
  have hb := T_sat_1000_bounds
  unfold idealExitT
  rw [if_neg (lt_irrefl _), T_from_s_super_at_sg 1000 T_sat_1000_pos (by linarith [hb.2])]
  intro heq
  have hpos : (0 : ℝ) < (1200 - SteamTable.T_sat 1000) / 2 ^ 81 :=
    div_pos (by linarith [hb.2]) (by positivity)
  linarith

/-- C4 amended: when the isentropic exit entropy exactly equals the
saturated-vapor entropy at condenser pressure, the ideal branch selection
resolves to the superheated branch with the quality marker 1; the ideal
exit temperature is `T_sat P + (1200 - T_sat P)/2^81` — approximately, but
not exactly, `T_sat P` — and the ideal exit enthalpy is `h_super` at that
temperature, approximately but not exactly `hg P`. -/
theorem steam_tie_resolution (P : ℝ) (h0 : 0 < SteamTable.T_sat P)
    (h12 : SteamTable.T_sat P < 1200) :
    idealExitQuality P (SteamTable.sg P) = 1 ∧
    idealExitT P (SteamTable.sg P) =
      SteamTable.T_sat P + (1200 - SteamTable.T_sat P) / 2 ^ 81 ∧
    idealExitH P (SteamTable.sg P) =
      SteamTable.h_super P (SteamTable.T_sat P + (1200 - SteamTable.T_sat P) / 2 ^ 81) := by
  unfold idealExitQuality idealExitT idealExitH
  rw [if_neg (lt_irrefl _), if_neg (lt_irrefl _), if_neg (lt_irrefl _),
    T_from_s_super_at_sg P h0 h12]
  exact ⟨rfl, rfl, rfl⟩

/-- Witness for `steam_tie_resolution` at `P = 1000` kPa. -/
theorem steam_tie_resolution_witness :
    idealExitQuality 1000 (SteamTable.sg 1000) = 1 ∧
    idealExitT 1000 (SteamTable.sg 1000) =
      SteamTable.T_sat 1000 + (1200 - SteamTable.T_sat 1000) / 2 ^ 81 ∧
    idealExitH 1000 (SteamTable.sg 1000) =
      SteamTable.h_super 1000 (SteamTable.T_sat 1000 + (1200 - SteamTable.T_sat 1000) / 2 ^ 81) :=
  steam_tie_resolution 1000 T_sat_1000_pos (by linarith [T_sat_1000_bounds.2])

/-- On 0–1050 K the cp polynomial is between 0.85 and 3.4. -/
lemma cp_bounds (x : ℝ) (h0 : 0 ≤ x) (h1 : x ≤ 1050) :
    0.85 ≤ GasTable.cp x ∧ GasTable.cp x ≤ 3.4 := by
  unfold GasTable.cp
  have ht : 0 ≤ x / 1000 := by linarith
  have ht' : x / 1000 ≤ 1.05 := by linarith
  constructor
  · nlinarith [sq_nonneg (x / 1000 - 0.6412), sq_nonneg (x / 1000 * (x / 1000)),
      mul_nonneg (mul_nonneg ht ht) (sub_nonneg.2 ht')]
  · nlinarith [mul_nonneg ht ht, mul_nonneg (mul_nonneg ht ht) ht,
      mul_nonneg (mul_nonneg (mul_nonneg ht ht) ht) ht,
      mul_nonneg (sub_nonneg.2 ht') (add_nonneg ht (by norm_num : (0:ℝ) ≤ 1.05)),
      mul_nonneg (mul_nonneg (sub_nonneg.2 ht') (add_nonneg ht (by norm_num : (0:ℝ) ≤ 1.05))) (mul_nonneg ht ht)]

/-- The interior Simpson nodes of the entropy integral stay between 119 and
1050 when the target temperature does. -/
lemma node_bounds (T : ℝ) (hT1 : 119 ≤ T) (hT2 : T ≤ 1050) (i : ℕ) (hi : i < 199) :
    119 ≤ 298.15 + (i + 1 : ℕ) * ((T - 298.15) / 200) ∧
      298.15 + (i + 1 : ℕ) * ((T - 298.15) / 200) ≤ 1050 := by
  have hk1 : (1 : ℝ) ≤ ((i + 1 : ℕ) : ℝ) := by exact_mod_cast Nat.succ_le_succ (Nat.zero_le i)
  have hk2 : ((i + 1 : ℕ) : ℝ) ≤ 200 := by exact_mod_cast Nat.succ_le_of_lt (by omega)
  rcases le_or_lt 298.15 T with hc | hc
  · have hm : 0 ≤ (T - 298.15) / 200 := by linarith
    constructor
    · nlinarith [mul_nonneg (by linarith : (0:ℝ) ≤ ((i + 1 : ℕ) : ℝ)) hm]
    · nlinarith [mul_le_mul_of_nonneg_right hk2 hm]
  · have hm : (T - 298.15) / 200 ≤ 0 := by linarith
    constructor
    · nlinarith [mul_le_mul_of_nonpos_right hk2 hm]
    · nlinarith [mul_nonpos_of_nonneg_of_nonpos (by linarith : (0:ℝ) ≤ ((i + 1 : ℕ) : ℝ)) hm]

/-- Between 119 and 1050 K the integrand `cp(x)/x` has magnitude at most
0.03. -/
lemma cpdiv_abs_le (x : ℝ) (h1 : 119 ≤ x) (h2 : x ≤ 1050) :
    |GasTable.cp x / x| ≤ 0.03 := by
  have hb := cp_bounds x (by linarith) h2
  rw [abs_div, abs_of_nonneg (by linarith : (0:ℝ) ≤ x),
    abs_of_nonneg (by linarith [hb.1] : (0:ℝ) ≤ GasTable.cp x),
    div_le_iff (by linarith : (0:ℝ) < x)]
  nlinarith [hb.2]

/-- The Simpson part of the gas entropy has magnitude at most 100 whenever
the target temperature is between 119 and 1050 K. -/
lemma sIntegral_abs_le (T : ℝ) (hT1 : 119 ≤ T) (hT2 : T ≤ 1050) :
    |GasTable.sIntegral T| ≤ 100 := by
  unfold GasTable.sIntegral
  rw [abs_mul]
  have hdT : |(T - 298.15) / 200 / 3| ≤ 1.26 := by
    rw [abs_le]
    constructor <;> linarith
  have hA := cpdiv_abs_le 298.15 (by norm_num) (by norm_num)
  have hB := cpdiv_abs_le T hT1 hT2
  have hS : |∑ i ∈ Finset.range 199,
      (if (i + 1) % 2 = 0 then (2:ℝ) else 4) *
        (GasTable.cp (298.15 + (i + 1 : ℕ) * ((T - 298.15) / 200)) /
          (298.15 + (i + 1 : ℕ) * ((T - 298.15) / 200)))| ≤ 23.88 := by
    refine (Finset.abs_sum_le_sum_abs _ _).trans ?_
    have hterm : ∀ i ∈ Finset.range 199,
        |(if (i + 1) % 2 = 0 then (2:ℝ) else 4) *
          (GasTable.cp (298.15 + (i + 1 : ℕ) * ((T - 298.15) / 200)) /
            (298.15 + (i + 1 : ℕ) * ((T - 298.15) / 200)))| ≤ 0.12 := by
      intro i hi
      rw [Finset.mem_range] at hi
      have hnode := node_bounds T hT1 hT2 i hi
      have hq := cpdiv_abs_le _ hnode.1 hnode.2
      rw [abs_mul]
      have hw : |(if (i + 1) % 2 = 0 then (2:ℝ) else 4)| ≤ 4 := by
        split_ifs <;> rw [abs_of_nonneg (by norm_num)] <;> norm_num
      calc |(if (i + 1) % 2 = 0 then (2:ℝ) else 4)| *
            |GasTable.cp (298.15 + (i + 1 : ℕ) * ((T - 298.15) / 200)) /
              (298.15 + (i + 1 : ℕ) * ((T - 298.15) / 200))| ≤ 4 * 0.03 :=
          mul_le_mul hw hq (abs_nonneg _) (by norm_num)
        _ = 0.12 := by norm_num
    refine (Finset.sum_le_sum hterm).trans ?_
    rw [Finset.sum_const, Finset.card_range, nsmul_eq_mul]
    norm_num
  have habc : |GasTable.cp 298.15 / 298.15 +
      (∑ i ∈ Finset.range 199,
        (if (i + 1) % 2 = 0 then (2:ℝ) else 4) *
          (GasTable.cp (298.15 + (i + 1 : ℕ) * ((T - 298.15) / 200)) /
            (298.15 + (i + 1 : ℕ) * ((T - 298.15) / 200)))) +
      GasTable.cp T / T| ≤ 24 := by
    calc |GasTable.cp 298.15 / 298.15 +
        (∑ i ∈ Finset.range 199,
          (if (i + 1) % 2 = 0 then (2:ℝ) else 4) *
            (GasTable.cp (298.15 + (i + 1 : ℕ) * ((T - 298.15) / 200)) /
              (298.15 + (i + 1 : ℕ) * ((T - 298.15) / 200)))) +
        GasTable.cp T / T| ≤ |GasTable.cp 298.15 / 298.15 +
          (∑ i ∈ Finset.range 199,
            (if (i + 1) % 2 = 0 then (2:ℝ) else 4) *
              (GasTable.cp (298.15 + (i + 1 : ℕ) * ((T - 298.15) / 200)) /
                (298.15 + (i + 1 : ℕ) * ((T - 298.15) / 200))))| + |GasTable.cp T / T| :=
        abs_add _ _
      _ ≤ (|GasTable.cp 298.15 / 298.15| + |∑ i ∈ Finset.range 199,
            (if (i + 1) % 2 = 0 then (2:ℝ) else 4) *
              (GasTable.cp (298.15 + (i + 1 : ℕ) * ((T - 298.15) / 200)) /
                (298.15 + (i + 1 : ℕ) * ((T - 298.15) / 200)))|) + |GasTable.cp T / T| := by
        have := abs_add (GasTable.cp 298.15 / 298.15)
          (∑ i ∈ Finset.range 199,
            (if (i + 1) % 2 = 0 then (2:ℝ) else 4) *
              (GasTable.cp (298.15 + (i + 1 : ℕ) * ((T - 298.15) / 200)) /
                (298.15 + (i + 1 : ℕ) * ((T - 298.15) / 200))))
        linarith
      _ ≤ 24 := by linarith
  calc |(T - 298.15) / 200 / 3| * |GasTable.cp 298.15 / 298.15 +
      (∑ i ∈ Finset.range 199,
        (if (i + 1) % 2 = 0 then (2:ℝ) else 4) *
          (GasTable.cp (298.15 + (i + 1 : ℕ) * ((T - 298.15) / 200)) /
            (298.15 + (i + 1 : ℕ) * ((T - 298.15) / 200)))) +
      GasTable.cp T / T| ≤ 1.26 * 24 :=
      mul_le_mul hdT habc (abs_nonneg _) (by norm_num)
    _ ≤ 100 := by norm_num

/-- The isentropic solver's result lies in its search bracket whenever the
inlet temperature is nonnegative. -/
lemma T_isentropic_range (T1 P1 P2 : ℝ) (h0 : 0 ≤ T1) :
    T1 * 0.4 ≤ GasTable.T_isentropic T1 P1 P2 ∧
      GasTable.T_isentropic T1 P1 P2 ≤ T1 * 3.5 := by
  unfold GasTable.T_isentropic
  have h := biter_midpoint_mem
    (c := fun mid => GasTable.s mid P2 < GasTable.s T1 P1) 80 (T1 * 0.4) (T1 * 3.5)
  rwa [min_eq_left (by nlinarith), max_eq_right (by nlinarith)] at h

/-- The gas entropy vanishes at the reference state. -/
lemma s_ref_zero : GasTable.s 298.15 101.325 = 0 := by
  rw [gasEntropy_at_Tref]
  norm_num

/-- Cancelling the reference pressure inside the entropy logarithm. -/
lemma log_Pref_exp (y : ℝ) : Real.log (101.325 * Real.exp y / 101.325) = y := by
  rw [mul_div_cancel_left₀ _ (by norm_num : (101.325:ℝ) ≠ 0), Real.log_exp]

/-- C1 counterexample: at `T1 = 298.15`, `P1 = 101.325` and the admissible
pressure `P2 = 101.325 · exp 1000`, the isentropic target entropy is 0 but
every temperature in the search bracket has entropy below `-187`, so the
round-trip error is around 287 while the claimed relative tolerance demands
exactly 0; the claim fails because the root lies outside the bracket. -/
theorem isentropic_roundtrip_counterexample :
    ¬ (|GasTable.s (GasTable.T_isentropic 298.15 101.325 (101.325 * Real.exp 1000))
          (101.325 * Real.exp 1000) - GasTable.s 298.15 101.325| ≤
        1e-6 * |GasTable.s 298.15 101.325|) := by
  intro habs
  rw [s_ref_zero, sub_zero, abs_zero, mul_zero] at habs
  have h0 : GasTable.s (GasTable.T_isentropic 298.15 101.325 (101.325 * Real.exp 1000))
      (101.325 * Real.exp 1000) = 0 := abs_eq_zero.mp (le_antisymm habs (abs_nonneg _))
  have hrg := T_isentropic_range 298.15 101.325 (101.325 * Real.exp 1000) (by norm_num)
  have hsI := sIntegral_abs_le (GasTable.T_isentropic 298.15 101.325 (101.325 * Real.exp 1000))
    (by nlinarith [hrg.1]) (by nlinarith [hrg.2])
  rw [abs_le] at hsI
  unfold GasTable.s at h0
  rw [log_Pref_exp] at h0
  linarith [hsI.1, hsI.2]

/-- The cp polynomial is continuous. -/
lemma cp_continuous : Continuous GasTable.cp := by
  unfold GasTable.cp
  fun_prop

/-- The Simpson part of the gas entropy is continuous on positive
temperatures: every node of the integration stays strictly positive there,
so no denominator vanishes. -/
lemma sIntegral_continuousOn : ContinuousOn GasTable.sIntegral (Set.Ioi 0) := by
  unfold GasTable.sIntegral
  apply ContinuousOn.mul
  · exact (Continuous.continuousOn (by fun_prop))
  · apply ContinuousOn.add
    · apply ContinuousOn.add
      · exact continuousOn_const
      · refine continuousOn_finset_sum _ fun i hi => ?_
        rw [Finset.mem_range] at hi
        apply ContinuousOn.mul continuousOn_const
        apply ContinuousOn.div
        · exact (cp_continuous.comp (by fun_prop)).continuousOn
        · exact Continuous.continuousOn (by fun_prop)
        · intro x hx
          rw [Set.mem_Ioi] at hx
          have hk1 : (1 : ℝ) ≤ ((i + 1 : ℕ) : ℝ) := by
            exact_mod_cast Nat.succ_le_succ (Nat.zero_le i)
          have hk2 : ((i + 1 : ℕ) : ℝ) ≤ 199 := by
            exact_mod_cast Nat.succ_le_of_lt (by omega)
          have hkx : 0 < ((i + 1 : ℕ) : ℝ) * x := mul_pos (by linarith) hx
          nlinarith [hkx]
    · apply ContinuousOn.div cp_continuous.continuousOn continuousOn_id
      intro x hx
      exact ne_of_gt (Set.mem_Ioi.mp hx)

/-- The gas entropy is continuous in temperature on positive temperatures,
for every fixed pressure. -/
lemma s_continuousOn (P : ℝ) :
    ContinuousOn (fun T => GasTable.s T P) (Set.Ioi 0) := by
  unfold GasTable.s
  exact sIntegral_continuousOn.sub continuousOn_const

/-- Bisection of the gas entropy on a positive bracketing interval: when the
target entropy is strictly above the value at the low endpoint and at most
the value at the high endpoint, an exact root exists within the final
interval, and the returned midpoint is within the final interval width of
it. -/
lemma s_bisect_root (P2 t : ℝ) (n : ℕ) (lo hi : ℝ) (h0 : 0 < lo) (hlohi : lo ≤ hi)
    (hlo : GasTable.s lo P2 < t) (hhi : t ≤ GasTable.s hi P2) :
    ∃ x, GasTable.s x P2 = t ∧ lo ≤ x ∧ x ≤ hi ∧
      |((biter (fun m => GasTable.s m P2 < t) n (lo, hi)).1 +
        (biter (fun m => GasTable.s m P2 < t) n (lo, hi)).2) / 2 - x| ≤
        (hi - lo) / 2 ^ n := by
  have hmem := biter_mem_Icc (c := fun m => GasTable.s m P2 < t) (a := lo) (b := hi)
    n (lo, hi) ⟨le_refl lo, hlohi⟩ ⟨hlohi, le_refl hi⟩
  have hwidth := biter_width (c := fun m => GasTable.s m P2 < t) n (lo, hi)
  have hinv := biter_invariant (c := fun m => GasTable.s m P2 < t) n (lo, hi) hlo
    (not_lt.2 hhi)
  obtain ⟨⟨h11, h12⟩, h21, h22⟩ := hmem
  set q := biter (fun m => GasTable.s m P2 < t) n (lo, hi) with hqdef
  have hw0 : 0 ≤ (hi - lo) / 2 ^ n := div_nonneg (by linarith) (by positivity)
  have hle : q.1 ≤ q.2 := by
    have := hwidth
    linarith
  have hcont : ContinuousOn (fun T => GasTable.s T P2) (Set.Icc q.1 q.2) :=
    (s_continuousOn P2).mono fun x hx => Set.mem_Ioi.mpr (by
      have := hx.1
      linarith)
  have hivt := intermediate_value_Icc hle hcont
  have hA : GasTable.s q.1 P2 < t := hinv.1
  have hB : ¬ GasTable.s q.2 P2 < t := hinv.2
  obtain ⟨x, hxmem, hxeq⟩ := hivt ⟨le_of_lt hA, not_lt.1 hB⟩
  have hxlo := hxmem.1
  have hxhi := hxmem.2
  refine ⟨x, hxeq, by linarith, by linarith, ?_⟩
  rw [abs_le]
  constructor
  · linarith
  · linarith

/-- C1 amended: when the inlet temperature is positive and the target
entropy is bracketed by the search interval (`s(0.4·T1, P2)` below it and
`s(3.5·T1, P2)` at or above it), the 80-step bisection midpoint is within
`3.1·T1 / 2^80` of a temperature whose entropy at `P2` exactly equals
`s(T1, P1)`; outside this bracketing condition the round trip can fail
completely, as the counterexample shows. -/
theorem isentropic_roundtrip_bracketed (T1 P1 P2 : ℝ) (h0 : 0 < T1)
    (hlo : GasTable.s (T1 * 0.4) P2 < GasTable.s T1 P1)
    (hhi : GasTable.s T1 P1 ≤ GasTable.s (T1 * 3.5) P2) :
    ∃ T2, GasTable.s T2 P2 = GasTable.s T1 P1 ∧
      |GasTable.T_isentropic T1 P1 P2 - T2| ≤ 3.1 * T1 / 2 ^ 80 := by
  obtain ⟨T2, hT2eq, hT2lo, hT2hi, hT2close⟩ :=
    s_bisect_root P2 (GasTable.s T1 P1) 80 (T1 * 0.4) (T1 * 3.5)
      (by nlinarith) (by nlinarith) hlo hhi
  refine ⟨T2, hT2eq, ?_⟩
  have heq : GasTable.T_isentropic T1 P1 P2 =
      ((biter (fun m => GasTable.s m P2 < GasTable.s T1 P1) 80 (T1 * 0.4, T1 * 3.5)).1 +
        (biter (fun m => GasTable.s m P2 < GasTable.s T1 P1) 80 (T1 * 0.4, T1 * 3.5)).2) / 2 :=
    rfl
  rw [heq]
  calc |((biter (fun m => GasTable.s m P2 < GasTable.s T1 P1) 80 (T1 * 0.4, T1 * 3.5)).1 +
        (biter (fun m => GasTable.s m P2 < GasTable.s T1 P1) 80 (T1 * 0.4, T1 * 3.5)).2) / 2 -
        T2| ≤ (T1 * 3.5 - T1 * 0.4) / 2 ^ 80 := hT2close
    _ = 3.1 * T1 / 2 ^ 80 := by ring

/-- Integrating `cp/T` downward from the reference to 119.26 K gives a value
below `-0.3`: every weighted integrand term is at least `0.00285` and the
negative step width scales the sum below the bound. -/
lemma sIntegral_04ref_le : GasTable.sIntegral 119.26 ≤ -0.3 := by
  unfold GasTable.sIntegral
  have hterm : ∀ i ∈ Finset.range 199,
      (0.0057 : ℝ) ≤ (if (i + 1) % 2 = 0 then (2:ℝ) else 4) *
        (GasTable.cp (298.15 + (i + 1 : ℕ) * ((119.26 - 298.15) / 200)) /
          (298.15 + (i + 1 : ℕ) * ((119.26 - 298.15) / 200))) := by
    intro i hi
    rw [Finset.mem_range] at hi
    have hk1 : (1 : ℝ) ≤ ((i + 1 : ℕ) : ℝ) := by exact_mod_cast Nat.succ_le_succ (Nat.zero_le i)
    have hk2 : ((i + 1 : ℕ) : ℝ) ≤ 199 := by exact_mod_cast Nat.succ_le_of_lt (by omega)
    have hnlo : (119.26 : ℝ) ≤ 298.15 + ((i + 1 : ℕ) : ℝ) * ((119.26 - 298.15) / 200) := by
      nlinarith
    have hnhi : 298.15 + ((i + 1 : ℕ) : ℝ) * ((119.26 - 298.15) / 200) ≤ 298.15 := by
      nlinarith
    have hnodepos : (0:ℝ) < 298.15 + ((i + 1 : ℕ) : ℝ) * ((119.26 - 298.15) / 200) := by
      linarith
    have hcpb := cp_bounds (298.15 + ((i + 1 : ℕ) : ℝ) * ((119.26 - 298.15) / 200))
      (by linarith) (by linarith)
    have hdiv : (0.00285 : ℝ) ≤
        GasTable.cp (298.15 + ((i + 1 : ℕ) : ℝ) * ((119.26 - 298.15) / 200)) /
          (298.15 + ((i + 1 : ℕ) : ℝ) * ((119.26 - 298.15) / 200)) := by
      rw [le_div_iff hnodepos]
      nlinarith [hcpb.1]
    split_ifs
    · linarith
    · linarith
  have hsum : (1.1343 : ℝ) ≤ ∑ i ∈ Finset.range 199,
      (if (i + 1) % 2 = 0 then (2:ℝ) else 4) *
        (GasTable.cp (298.15 + (i + 1 : ℕ) * ((119.26 - 298.15) / 200)) /
          (298.15 + (i + 1 : ℕ) * ((119.26 - 298.15) / 200))) := by
    have h := Finset.sum_le_sum hterm
    rw [Finset.sum_const, Finset.card_range, nsmul_eq_mul] at h
    linarith [h]
  have hA : (0.00285 : ℝ) ≤ GasTable.cp 298.15 / 298.15 := by
    have hcpb := cp_bounds 298.15 (by norm_num) (by norm_num)
    rw [le_div_iff (by norm_num : (0:ℝ) < 298.15)]
    nlinarith [hcpb.1]
  have hB : (0.00285 : ℝ) ≤ GasTable.cp 119.26 / 119.26 := by
    have hcpb := cp_bounds 119.26 (by norm_num) (by norm_num)
    rw [le_div_iff (by norm_num : (0:ℝ) < 119.26)]
    nlinarith [hcpb.1]
  have hc0 : ((119.26 - 298.15) / 200 / 3 : ℝ) = -(0.29815) := by norm_num
  rw [hc0]
  nlinarith [hA, hB, hsum]

/-- Integrating `cp/T` upward from the reference to 1043.525 K gives a
nonnegative value: positive step width times a sum of nonnegative terms. -/
lemma sIntegral_35ref_nonneg : 0 ≤ GasTable.sIntegral 1043.525 := by
  unfold GasTable.sIntegral
  have hA : (0:ℝ) ≤ GasTable.cp 298.15 / 298.15 := by
    have hcpb := cp_bounds 298.15 (by norm_num) (by norm_num)
    exact div_nonneg (by linarith [hcpb.1]) (by norm_num)
  have hB : (0:ℝ) ≤ GasTable.cp 1043.525 / 1043.525 := by
    have hcpb := cp_bounds 1043.525 (by norm_num) (by norm_num)
    exact div_nonneg (by linarith [hcpb.1]) (by norm_num)
  have hS : (0:ℝ) ≤ ∑ i ∈ Finset.range 199,
      (if (i + 1) % 2 = 0 then (2:ℝ) else 4) *
        (GasTable.cp (298.15 + (i + 1 : ℕ) * ((1043.525 - 298.15) / 200)) /
          (298.15 + (i + 1 : ℕ) * ((1043.525 - 298.15) / 200))) := by
    refine Finset.sum_nonneg fun i hi => ?_
    rw [Finset.mem_range] at hi
    have hk1 : (1 : ℝ) ≤ ((i + 1 : ℕ) : ℝ) := by exact_mod_cast Nat.succ_le_succ (Nat.zero_le i)
    have hk2 : ((i + 1 : ℕ) : ℝ) ≤ 199 := by exact_mod_cast Nat.succ_le_of_lt (by omega)
    have hnlo : (298.15 : ℝ) ≤ 298.15 + ((i + 1 : ℕ) : ℝ) * ((1043.525 - 298.15) / 200) := by
      nlinarith
    have hnhi : 298.15 + ((i + 1 : ℕ) : ℝ) * ((1043.525 - 298.15) / 200) ≤ 1050 := by
      nlinarith
    have hcpb := cp_bounds (298.15 + ((i + 1 : ℕ) : ℝ) * ((1043.525 - 298.15) / 200))
      (by linarith) hnhi
    refine mul_nonneg (by split_ifs <;> norm_num) (div_nonneg (by linarith [hcpb.1]) (by linarith))
  have hc0 : (0:ℝ) ≤ (1043.525 - 298.15) / 200 / 3 := by norm_num
  nlinarith [mul_nonneg hc0 (add_nonneg (add_nonneg hA hS) hB)]

/-- Witness for `isentropic_roundtrip_bracketed` at `T1 = 298.15`,
`P1 = 101.325`, `P2 = 101.325·e⁻¹`: the target entropy is 0 and the bracket
endpoint entropies are below `-0.01` and above `0.28`. -/
theorem isentropic_roundtrip_bracketed_witness :
    ∃ T2, GasTable.s T2 (101.325 * Real.exp (-1)) = GasTable.s 298.15 101.325 ∧
      |GasTable.T_isentropic 298.15 101.325 (101.325 * Real.exp (-1)) - T2| ≤
        3.1 * 298.15 / 2 ^ 80 :=
  isentropic_roundtrip_bracketed 298.15 101.325 (101.325 * Real.exp (-1)) (by norm_num)
    (by
      rw [s_ref_zero]
      unfold GasTable.s
      rw [log_Pref_exp]
      have harg : (298.15 : ℝ) * 0.4 = 119.26 := by norm_num
      rw [harg]
      linarith [sIntegral_04ref_le])
    (by
      rw [s_ref_zero]
      unfold GasTable.s
      rw [log_Pref_exp]
      have harg : (298.15 : ℝ) * 3.5 = 1043.525 := by norm_num
      rw [harg]
      linarith [sIntegral_35ref_nonneg])
